import Mathlib

/-!
Verification of the coolpackets library (src/coolpackets/packet.py).

The development shallowly embeds the parts of `packet.py` that the spec talks
about: the wire frame codec built inline in `Connection.send` and parsed in
`Connection._recv`, the blocking reader `Connection._recv_all`, request-id
allocation (`Connection.req_id`), response-callback dispatch, `Connection.close`,
group filtering in the receive loop, the packet registry (`PacketManager.__new__`),
and packet construction / encoding (`Packet.__init__`, `Packet.public_attributes`,
`Packet.encode`, `Packet.decode`).

Bytes are modelled as `List Nat` (each element a byte value), Python dicts as
association lists looked up with `assocGet`, and the external msgpack codec as an
opaque pair of functions assumed to round-trip where the spec assumes it.
-/

/-- Python dict / first-match association-list lookup (`d.get(k)` / `d[k]`). -/
def assocGet {α β : Type} [DecidableEq α] (l : List (α × β)) (k : α) : Option β :=
  match l with
  | [] => none
  | (k', v) :: rest => if k' = k then some v else assocGet rest k

/-! ### Frame codec

`Connection.send` builds `struct.pack("!H", req_id)` (2 bytes big-endian),
an optional-response marker, a one-byte type-id length, the type id and the
body, prefixed with `struct.pack("!I", len(data))` (4 bytes big-endian).
`Connection._recv` parses the same layout. -/

/-- Big-endian 2-byte encoding, `struct.pack("!H", n)` (for `n` in range). -/
def pack16 (n : Nat) : List Nat := [n / 256 % 256, n % 256]

/-- Big-endian 2-byte decoding, `struct.unpack("!H", bs)`; `none` models the
`struct.error` raised when `bs` is not exactly 2 bytes. -/
def unpack16 : List Nat → Option Nat
  | [a, b] => some (a * 256 + b)
  | _ => none

/-- Big-endian 4-byte encoding, `struct.pack("!I", n)` (for `n` in range). -/
def pack32 (n : Nat) : List Nat :=
  [n / 16777216 % 256, n / 65536 % 256, n / 256 % 256, n % 256]

/-- Big-endian 4-byte decoding, `struct.unpack("!I", bs)`. -/
def unpack32 : List Nat → Option Nat
  | [a, b, c, d] => some (((a * 256 + b) * 256 + c) * 256 + d)
  | _ => none

/-- The response marker of `Connection.send`: `b'\x00'` when `respond_to is None`,
else `b'\x01' + struct.pack("!H", respond_to)`; `none` models the `struct.error`
raised when `respond_to` does not fit 2 bytes. -/
def respondToData : Option Nat → Option (List Nat)
  | none => some [0]
  | some r => if r < 65536 then some (1 :: pack16 r) else none

/-- Length-prefixing step of `Connection.send`:
`data_len = struct.pack("!I", len(data))`, then `data_len + data`;
`none` models the `struct.error` when the payload does not fit 4 bytes. -/
def encodeWithLen (data : List Nat) : Option (List Nat) :=
  if data.length < 4294967296 then some (pack32 data.length ++ data) else none

/-- The frame built by `Connection.send` (packet.py lines 95-107):
`req_id_data + respond_to_data + packet_name_len + packet_name + packet_data`,
length-prefixed. `none` models the exceptions raised when `req_id` or
`respond_to` overflow 2 bytes (`struct.error`) or the wire identifier is longer
than 255 bytes (`bytes([len(packet_name)])` raises `ValueError`). -/
def encodeFrame (name body : List Nat) (reqId : Nat) (respondTo : Option Nat) :
    Option (List Nat) :=
  if reqId < 65536 then
    match respondToData respondTo with
    | none => none
    | some rdata =>
      if name.length ≤ 255 then
        encodeWithLen (pack16 reqId ++ rdata ++ name.length :: (name ++ body))
      else none
  else none

/-- The fields `Connection._recv` extracts from one frame: `req_id`,
`response_to`, `packet_type` and `packet_msg`. -/
structure ParsedFrame where
  reqId : Nat
  respondTo : Option Nat
  typeId : List Nat
  body : List Nat
deriving DecidableEq, Repr

/-- Tail of the payload parse in `Connection._recv` (lines 148-150):
`packet_type_len = packet_data[0]`, `packet_type = packet_data[1:len+1]`,
`packet_msg = packet_data[len+1:]`; `none` models the `IndexError` on an
empty remainder. -/
def parseBody (reqId : Nat) (respondTo : Option Nat) : List Nat → Option ParsedFrame
  | [] => none
  | tlen :: rest => some ⟨reqId, respondTo, rest.take tlen, rest.drop tlen⟩

/-- Payload parse of `Connection._recv` (lines 136-150): the request id from
the first 2 bytes, then the response marker (`packet_data[0] == 0` means not a
response, otherwise `respond_to` is read from `packet_data[1:3]`), then the
type id and body. -/
def parsePayload (pd : List Nat) : Option ParsedFrame :=
  (unpack16 (pd.take 2)).bind fun reqId =>
    match pd.drop 2 with
    | [] => none
    | marker :: rest =>
      if marker = 0 then parseBody reqId none rest
      else (unpack16 (rest.take 2)).bind fun r =>
        parseBody reqId (some r) (rest.drop 2)

/-- Frame parse of `Connection._recv` (lines 133-135) applied to a complete
byte sequence: 4-byte length, then exactly that many payload bytes (the length
check models `_recv_all` blocking until the full payload has arrived). -/
def parseFrame (bs : List Nat) : Option ParsedFrame :=
  (unpack32 (bs.take 4)).bind fun len =>
    if ((bs.drop 4).take len).length = len then parsePayload ((bs.drop 4).take len)
    else none

/-! ### The blocking reader `Connection._recv_all`

`sock.recv(k)` returns at most `k` buffered bytes, returns `b''` once the peer
has performed an orderly shutdown, and raises `ConnectionError`/`OSError` on a
transport failure. We model the stream as a queue of events; an exhausted queue
is an orderly EOF, on which `recv` keeps returning the empty byte string. -/

inductive StreamEv where
  /-- bytes handed over by one successful `sock.recv` call -/
  | chunk (bs : List Nat)
  /-- `sock.recv` raises `ConnectionError` or `OSError` -/
  | ioError
deriving DecidableEq, Repr

structure ByteStream where
  evs : List StreamEv
deriving DecidableEq, Repr

/-- One `self.sock.recv(k)` call. An `Except.error` is the raised socket error
(wrapped by `_recv_all` into `PacketConnectionClosedException`). -/
def sockRecv (s : ByteStream) (k : Nat) : Except Unit (List Nat × ByteStream) :=
  match s.evs with
  | [] => .ok ([], s)
  | .ioError :: _ => .error ()
  | .chunk bs :: rest =>
    if bs.length ≤ k then .ok (bs, ⟨rest⟩)
    else .ok (bs.take k, ⟨.chunk (bs.drop k) :: rest⟩)

/-- `Connection._recv_all` (packet.py lines 119-127): loop
`while len(received) < n: received += self.sock.recv(n - len(received))`.
The loop has no fuel in the source; `fuel` bounds the number of iterations we
run it for, and a result of `none` means the loop has not terminated within
`fuel` iterations. -/
def recvAll (fuel : Nat) (s : ByteStream) (acc : List Nat) (n : Nat) :
    Option (Except Unit (List Nat × ByteStream)) :=
  match fuel with
  | 0 => none
  | fuel' + 1 =>
    if acc.length < n then
      match sockRecv s (n - acc.length) with
      | .error _ => some (.error ())
      | .ok (data, s') => recvAll fuel' s' (acc ++ data) n
    else some (.ok (acc, s))

/-! ### Request-id allocation and the response-callback table

`Connection.__init__` sets `self._req_id = -1` and `self.response_callbacks = {}`.
The `req_id` property increments, wraps modulo 256**2, evicts any callback still
registered under the new value, and returns it. The callback table is modelled
by its membership function. -/

structure ConnState where
  reqId : Int
  callbacks : Nat → Bool

def connInit : ConnState := ⟨-1, fun _ => false⟩

/-- The `Connection.req_id` property (packet.py lines 86-93). -/
def allocReqId (c : ConnState) : Nat × ConnState :=
  let r := ((c.reqId + 1) % 65536).toNat
  (r, ⟨(r : Int), fun i => if i = r then false else c.callbacks i⟩)

/-- Run `n` allocations, keeping only the state. -/
def allocIter : Nat → ConnState → ConnState
  | 0, c => c
  | n + 1, c => allocIter n (allocReqId c).2

/-- The id returned by allocation number `n` (0-indexed) on a fresh connection. -/
def nthReqId (n : Nat) : Nat := (allocReqId (allocIter n connInit)).1

/-! ### Response dispatch in the receive loop

`Connection._recv` lines 167-169: after a frame is decoded and its hook has
run, `if response_to is not None: if response_to in self.response_callbacks:
self.response_callbacks[response_to](packet)`. The table is not modified by
dispatch. We record, per frame, the list of ids whose callback is invoked. -/

def dispatchResponse (cbs : Nat → Bool) : Option Nat → List Nat × (Nat → Bool)
  | none => ([], cbs)
  | some r => (if cbs r then [r] else [], cbs)

/-- The receive loop's response dispatching over a list of frames (each frame
given by its `response_to` field), threading the callback table through and
collecting every callback invocation in order. -/
def recvResponses (cbs : Nat → Bool) : List (Option Nat) → List Nat
  | [] => []
  | f :: rest =>
    (dispatchResponse cbs f).1 ++ recvResponses (dispatchResponse cbs f).2 rest

/-- Number of occurrences of `r` in a list of invoked ids. -/
def countOcc (r : Nat) : List Nat → Nat
  | [] => 0
  | x :: rest => (if x = r then 1 else 0) + countOcc r rest

/-- Number of frames carrying `respond_to = r`. -/
def countFrames (r : Nat) : List (Option Nat) → Nat
  | [] => 0
  | f :: rest => (if f = some r then 1 else 0) + countFrames r rest

/-! ### Connection close

`Connection.close` (packet.py lines 176-181) sets the closed flag, closes the
socket, and calls `self.on_close(self)` whenever `emit_event` is true - it does
not consult the closed flag. The receive loop's exception handler (lines
170-174) returns without closing when the connection is already closed; `send`'s
error path (lines 115-117) calls `close(True)` unconditionally. `notifications`
counts invocations of the on-close callback. -/

structure CloseState where
  closed : Bool
  sockClosed : Bool
  notifications : Nat
deriving DecidableEq, Repr

def closeStateInit : CloseState := ⟨false, false, 0⟩

/-- `Connection.close(emit_event)`. -/
def closeConn (c : CloseState) (emitEvent : Bool) : CloseState :=
  { closed := true
    sockClosed := true
    notifications := c.notifications + if emitEvent then 1 else 0 }

/-- The close performed by `Connection.send`'s exception handler. -/
def sendFailClose (c : CloseState) : CloseState := closeConn c true

/-- The close performed by `Connection._recv`'s exception handler: return if
already closed, otherwise `close(True)`. -/
def recvLoopOnBroken (c : CloseState) : CloseState :=
  if c.closed = true then c else closeConn c true

/-! ### Group filtering in the receive loop -/

/-- The slice of a registered packet class the group check reads:
`cls._packet_group`. -/
structure PacketTypeInfo where
  group : String
deriving DecidableEq, Repr

/-- `Connection.__init__`: `self.packet_groups = packet_groups | {'*'}`
(membership model of the set union). -/
def connectionGroups (packetGroups : List String) : List String :=
  "*" :: packetGroups

/-- Outcome of one receive-loop iteration for a frame, up to delivery:
the type-id lookup and the group check both `continue` (discarding the frame
before `packet_class.decode` and `packet.on_recv()` are reached); otherwise the
body is decoded, the context is attached and the hook is invoked. -/
inductive RecvOutcome where
  | droppedUnknownType
  | droppedBadGroup
  | delivered
deriving DecidableEq, Repr

/-- `Connection._recv` lines 151-166: registry lookup, then
`if packet_group != "*" and packet_group not in self.packet_groups: continue`,
otherwise decode and deliver. -/
def recvFilter (registry : List (List Nat × PacketTypeInfo)) (groups : List String)
    (typeId : List Nat) : RecvOutcome :=
  match assocGet registry typeId with
  | none => .droppedUnknownType
  | some cls =>
    if cls.group ≠ "*" ∧ cls.group ∉ groups then .droppedBadGroup else .delivered

/-! ### The packet registry

`PacketManager.__new__` (packet.py lines 19-31): classes with no bases (the
`Packet` root) are not registered; an alias already present only logs a warning
and leaves the registry untouched; classes marked `_unregistered` are skipped;
otherwise the class is added under its alias. Classes are identified by an
opaque `Nat`; aliases are byte strings. -/

def registerPacket (reg : List (List Nat × Nat)) (hasBases : Bool)
    (aliasId : List Nat) (unregisteredFlag : Bool) (cls : Nat) : List (List Nat × Nat) :=
  if hasBases = false then reg
  else if (assocGet reg aliasId).isSome then reg
  else if unregisteredFlag then reg
  else reg ++ [(aliasId, cls)]

/-! ### Packet construction and the field schema

A packet class declares its public fields as class attributes whose values are
type annotations; `Packet.__init__` reads them through `public_attributes`
(at that point every public field still holds its annotation) and validates the
keyword arguments against them with `typeguard.check_type`. We model the
annotation language with `Ty` (with `topt` for `Optional[...]`) and runtime
values with `Val` (`vnull` is Python `None`). -/

inductive Val where
  | vnull
  | vint (n : Int)
  | vstr (s : String)
  | vbool (b : Bool)
deriving DecidableEq, Repr

inductive Ty where
  | tint
  | tstr
  | tbool
  | topt (t : Ty)
deriving DecidableEq, Repr

/-- `typeguard.check_type(name, value, ty)` as a Boolean: `true` when the value
matches the annotation. `Optional[t]` accepts `None` and everything `t` accepts. -/
def checkType : Ty → Val → Bool
  | .tint, .vint _ => true
  | .tstr, .vstr _ => true
  | .tbool, .vbool _ => true
  | .topt _, .vnull => true
  | .topt t, v => checkType t v
  | _, _ => false

/-- The `TypeError`s raised inside `Packet.__init__` (then wrapped in
`PacketInitializationFailedException`). -/
inductive InitError where
  | missingField (name : String) (ty : Ty)
  | unexpectedField (name : String)
  | typeMismatch (name : String) (ty : Ty)
deriving DecidableEq, Repr

/-- First loop of `Packet.__init__` (lines 198-206): for every schema field not
supplied, accept it (it will be set to `None`) when its annotation accepts
`None`, otherwise raise the missing-argument `TypeError`. -/
def checkMissing (kwargs : List (String × Val)) : List (String × Ty) → Option InitError
  | [] => none
  | (n, t) :: rest =>
    if (assocGet kwargs n).isSome then checkMissing kwargs rest
    else if checkType t .vnull then checkMissing kwargs rest
    else some (.missingField n t)

/-- Second loop of `Packet.__init__` (lines 208-212): every supplied key must
be a schema field and its value must match the annotation. -/
def checkSupplied (schema : List (String × Ty)) : List (String × Val) → Option InitError
  | [] => none
  | (k, v) :: rest =>
    match assocGet schema k with
    | none => some (.unexpectedField k)
    | some t => if checkType t v then checkSupplied schema rest else some (.typeMismatch k t)

/-- The attribute assignment performed by the two loops of `Packet.__init__`:
each schema field ends up holding its supplied value, or `None` when omitted. -/
def assignFields (schema : List (String × Ty)) (kwargs : List (String × Val)) :
    List (String × Val) :=
  schema.map fun nt => (nt.1, (assocGet kwargs nt.1).getD .vnull)

/-- `Packet.__init__(**kwargs)` over a schema: the validation of both loops,
then the resulting field assignment. -/
def initPacket (schema : List (String × Ty)) (kwargs : List (String × Val)) :
    Except InitError (List (String × Val)) :=
  match checkMissing kwargs schema with
  | some e => .error e
  | none =>
    match checkSupplied schema kwargs with
    | some e => .error e
    | none => .ok (assignFields schema kwargs)

/-- `Packet.public_attributes` on a constructed instance, restricted to the
schema fields (underscore attributes and methods are already excluded from the
schema): the fields currently holding a non-`None` value. -/
def publicFieldValues (inst : List (String × Val)) : List (String × Val) :=
  inst.filter fun kv => kv.2 ≠ Val.vnull

/-- `Packet.encode`: `msgpack.packb(self.public_attributes)` with the msgpack
codec kept opaque as `packb`. -/
def encodeFields {β : Type} (packb : List (String × Val) → β)
    (inst : List (String × Val)) : β :=
  packb (publicFieldValues inst)

/-- `Packet.decode`: `cls(**msgpack.unpackb(data))` with the msgpack codec kept
opaque as `unpackb`. -/
def decodeFields {β : Type} (unpackb : β → List (String × Val))
    (schema : List (String × Ty)) (data : β) : Except InitError (List (String × Val)) :=
  initPacket schema (unpackb data)

/-! ### `public_attributes` on the raw class dictionary

For claim C10 we model the class namespace itself: `Packet.public_attributes`
iterates `self.__class__.__dict__.items()` and keeps entries whose key does not
start with an underscore, whose class-level value is not a routine, and whose
current value (`getattr(self, key)`, the instance attribute when set, otherwise
the class attribute) is not `None`. -/

/-- Runtime value of a Python attribute: an ordinary (msgpack-able) value, a
type-annotation object used as a class-level field declaration, or a
function/method. -/
inductive PyVal where
  | val (v : Val)
  | tyObj (t : Ty)
  | func
deriving DecidableEq, Repr

/-- `inspect.isroutine`. -/
def isroutine : PyVal → Bool
  | .func => true
  | _ => false

/-- `x is None`. -/
def isNone : PyVal → Bool
  | .val .vnull => true
  | _ => false

/-- `key.startswith("_")`, evaluated on the character list of the string. -/
def startsWithUnderscore (s : String) : Bool :=
  match s.data with
  | [] => false
  | c :: _ => c = '_'

/-- A packet object: its class dictionary (in declaration order) and the
instance attributes set so far. -/
structure PacketObj where
  classDict : List (String × PyVal)
  instDict : List (String × Val)
deriving DecidableEq, Repr

/-- `getattr(self, key)`: the instance attribute when set, else the class
attribute (the fallback default is never reached for keys of the class dict). -/
def pyGetattr (p : PacketObj) (k : String) : PyVal :=
  match assocGet p.instDict k with
  | some v => .val v
  | none => (assocGet p.classDict k).getD (.val .vnull)

/-- `Packet.public_attributes` (packet.py lines 221-225). -/
def publicAttributes (p : PacketObj) : List (String × PyVal) :=
  p.classDict.filterMap fun kv =>
    if startsWithUnderscore kv.1 = false ∧ isroutine kv.2 = false ∧
        isNone (pyGetattr p kv.1) = false then
      some (kv.1, pyGetattr p kv.1)
    else none

/-- `Packet.encode` at the object level: `msgpack.packb(self.public_attributes)`. -/
def encodePacket {β : Type} (packb : List (String × PyVal) → β) (p : PacketObj) : β :=
  packb (publicAttributes p)

/-! ## Helper lemmas -/

theorem take_len_append {α : Type} (l₁ l₂ : List α) : (l₁ ++ l₂).take l₁.length = l₁ := by
  induction l₁ with
  | nil => rfl
  | cons a t ih => simp [ih]

theorem drop_len_append {α : Type} (l₁ l₂ : List α) : (l₁ ++ l₂).drop l₁.length = l₂ := by
  induction l₁ with
  | nil => rfl
  | cons a t ih => simp [ih]

theorem pack16_length (n : Nat) : (pack16 n).length = 2 := rfl

theorem pack32_length (n : Nat) : (pack32 n).length = 4 := rfl

theorem unpack16_pack16 (n : Nat) (h : n < 65536) : unpack16 (pack16 n) = some n := by
  show some (n / 256 % 256 * 256 + n % 256) = some n
  congr 1
  omega

theorem unpack32_pack32 (n : Nat) (h : n < 4294967296) : unpack32 (pack32 n) = some n := by
  show some (((n / 16777216 % 256 * 256 + n / 65536 % 256) * 256 + n / 256 % 256) * 256
      + n % 256) = some n
  congr 1
  omega

theorem take2_pack16_append (n : Nat) (l : List Nat) : (pack16 n ++ l).take 2 = pack16 n := by
  rw [show (2 : Nat) = (pack16 n).length from rfl]
  exact take_len_append _ _

theorem drop2_pack16_append (n : Nat) (l : List Nat) : (pack16 n ++ l).drop 2 = l := by
  rw [show (2 : Nat) = (pack16 n).length from rfl]
  exact drop_len_append _ _

theorem parseFrame_encodeWithLen (data frame : List Nat)
    (h : encodeWithLen data = some frame) : parseFrame frame = parsePayload data := by
  unfold encodeWithLen at h
  by_cases hlen : data.length < 4294967296
  · rw [if_pos hlen] at h
    cases h
    unfold parseFrame
    have h4 : (pack32 data.length ++ data).take 4 = pack32 data.length := by
      rw [show (4 : Nat) = (pack32 data.length).length from rfl]
      exact take_len_append _ _
    have h4' : (pack32 data.length ++ data).drop 4 = data := by
      rw [show (4 : Nat) = (pack32 data.length).length from rfl]
      exact drop_len_append _ _
    rw [h4, h4', unpack32_pack32 _ hlen, Option.some_bind, List.take_length, if_pos rfl]
  · rw [if_neg hlen] at h
    exact Option.noConfusion h

theorem parsePayload_cons (pd : List Nat) (reqId marker : Nat) (rest : List Nat)
    (h1 : unpack16 (pd.take 2) = some reqId) (h2 : pd.drop 2 = marker :: rest) :
    parsePayload pd =
      (if marker = 0 then parseBody reqId none rest
       else (unpack16 (rest.take 2)).bind fun r => parseBody reqId (some r) (rest.drop 2)) := by
  unfold parsePayload
  rw [h1, h2, Option.some_bind]

theorem respondToData_some (r : Nat) (h : r < 65536) :
    respondToData (some r) = some (1 :: pack16 r) := by
  show (if r < 65536 then some (1 :: pack16 r) else none) = _
  rw [if_pos h]

theorem respondToData_some_of_ge (r : Nat) (h : ¬ r < 65536) :
    respondToData (some r) = none := by
  show (if r < 65536 then some (1 :: pack16 r) else none) = _
  rw [if_neg h]

/-- Claim C4: for every packet whose wire identifier is at most 255 bytes, every
request id in 0-65535 and every respond_to absent or in 0-65535, parsing the
frame built by the send-side framing recovers the request id, the respond_to
presence and value, the wire identifier and the original body bytes (the
preconditions are enforced by `encodeFrame` returning `some`). -/
theorem frame_encode_decode_roundtrip (name body : List Nat) (reqId : Nat)
    (respondTo : Option Nat) (frame : List Nat)
    (henc : encodeFrame name body reqId respondTo = some frame) :
    parseFrame frame = some ⟨reqId, respondTo, name, body⟩ := by
  unfold encodeFrame at henc
  by_cases hreq : reqId < 65536
  case neg =>
    rw [if_neg hreq] at henc
    exact Option.noConfusion henc
  rw [if_pos hreq] at henc
  rcases respondTo with _ | r
  · replace henc :
        (if name.length ≤ 255 then
          encodeWithLen (pack16 reqId ++ (0 :: name.length :: (name ++ body)))
        else none) = some frame := henc
    by_cases hname : name.length ≤ 255
    case neg =>
      rw [if_neg hname] at henc
      exact Option.noConfusion henc
    rw [if_pos hname] at henc
    rw [parseFrame_encodeWithLen _ _ henc]
    rw [parsePayload_cons (pack16 reqId ++ (0 :: name.length :: (name ++ body)))
      reqId 0 (name.length :: (name ++ body))
      (by rw [take2_pack16_append]; exact unpack16_pack16 _ hreq)
      (by rw [drop2_pack16_append])]
    rw [if_pos rfl]
    show some (⟨reqId, none, (name ++ body).take name.length,
      (name ++ body).drop name.length⟩ : ParsedFrame) = _
    rw [show (name ++ body).take name.length = name from take_len_append _ _,
      show (name ++ body).drop name.length = body from drop_len_append _ _]
  · by_cases hr : r < 65536
    case neg =>
      rw [respondToData_some_of_ge r hr] at henc
      exact Option.noConfusion henc
    rw [respondToData_some r hr] at henc
    replace henc :
        (if name.length ≤ 255 then
          encodeWithLen (pack16 reqId ++ (1 :: (pack16 r ++ name.length :: (name ++ body))))
        else none) = some frame := henc
    by_cases hname : name.length ≤ 255
    case neg =>
      rw [if_neg hname] at henc
      exact Option.noConfusion henc
    rw [if_pos hname] at henc
    rw [parseFrame_encodeWithLen _ _ henc]
    rw [parsePayload_cons (pack16 reqId ++ (1 :: (pack16 r ++ name.length :: (name ++ body))))
      reqId 1 (pack16 r ++ name.length :: (name ++ body))
      (by rw [take2_pack16_append]; exact unpack16_pack16 _ hreq)
      (by rw [drop2_pack16_append])]
    rw [if_neg (by omega)]
    rw [take2_pack16_append, unpack16_pack16 _ hr, Option.some_bind,
      drop2_pack16_append]
    show some (⟨reqId, some r, (name ++ body).take name.length,
      (name ++ body).drop name.length⟩ : ParsedFrame) = _
    rw [show (name ++ body).take name.length = name from take_len_append _ _,
      show (name ++ body).drop name.length = body from drop_len_append _ _]

/-- Witness for claim C4 at a concrete frame: identifier [65], body [7],
request id 1, responding to id 2. -/
theorem frame_encode_decode_roundtrip_witness :
    parseFrame [0, 0, 0, 8, 0, 1, 1, 0, 2, 1, 65, 7] =
      some ⟨1, some 2, [65], [7]⟩ :=
  frame_encode_decode_roundtrip [65] [7] 1 (some 2) _ (by decide)

/-- Claim C2 (the code violates it): `_recv_all` run against a stream on which
the peer performed an orderly shutdown before delivering the 4 requested bytes
never terminates, for any number of loop iterations - `sock.recv` returns the
empty byte string forever and the loop keeps spinning, instead of raising the
StreamBroken condition the spec requires. -/
theorem recvAll_eof_spins : ∀ fuel : Nat, recvAll fuel ⟨[]⟩ [] 4 = none := by
  intro fuel
  induction fuel with
  | zero => rfl
  | succ f ih =>
    show recvAll f ⟨[]⟩ [] 4 = none
    exact ih

theorem allocIter_succ_right (n : Nat) (c : ConnState) :
    allocIter (n + 1) c = (allocReqId (allocIter n c)).2 := by
  induction n generalizing c with
  | zero => rfl
  | succ n ih =>
    show allocIter (n + 1) (allocReqId c).2 = _
    rw [ih]
    rfl

theorem allocIter_reqId (n : Nat) :
    (allocIter (n + 1) connInit).reqId = ((n % 65536 : Nat) : Int) := by
  induction n with
  | zero => rfl
  | succ n ih =>
    rw [allocIter_succ_right]
    show ((((allocIter (n + 1) connInit).reqId + 1) % 65536).toNat : Int) = _
    rw [ih]
    omega

theorem nthReqId_eq (n : Nat) : nthReqId n = n % 65536 := by
  cases n with
  | zero => rfl
  | succ n =>
    show (((allocIter (n + 1) connInit).reqId + 1) % 65536).toNat = (n + 1) % 65536
    rw [allocIter_reqId]
    omega

/-- Claim C7: request-id allocation starts at 0, each allocation returns the
previous id plus one modulo 65536, allocation number 65536 returns the first
ever allocated id again, and allocation always evicts the callback-table entry
at the id it lands on while leaving every other entry untouched. -/
theorem req_id_allocation_spec :
    nthReqId 0 = 0 ∧
    (∀ n : Nat, nthReqId (n + 1) = (nthReqId n + 1) % 65536) ∧
    nthReqId 65536 = nthReqId 0 ∧
    (∀ c : ConnState, (allocReqId c).2.callbacks (allocReqId c).1 = false) ∧
    (∀ (c : ConnState) (i : Nat), i ≠ (allocReqId c).1 →
      (allocReqId c).2.callbacks i = c.callbacks i) := by
  refine ⟨by decide, ?_, ?_, ?_, ?_⟩
  · intro n
    rw [nthReqId_eq, nthReqId_eq]
    omega
  · rw [nthReqId_eq, nthReqId_eq]
  · intro c
    show (if (allocReqId c).1 = (allocReqId c).1 then false
      else c.callbacks (allocReqId c).1) = false
    rw [if_pos rfl]
  · intro c i h
    show (if i = (allocReqId c).1 then false else c.callbacks i) = c.callbacks i
    rw [if_neg h]

/-- Witness for claim C7: allocating on a table containing every id evicts the
allocated id 0 but leaves id 3 registered. -/
theorem req_id_allocation_spec_witness :
    (allocReqId ⟨-1, fun _ => true⟩).2.callbacks 3 =
      (⟨-1, fun _ => true⟩ : ConnState).callbacks 3 :=
  req_id_allocation_spec.2.2.2.2 ⟨-1, fun _ => true⟩ 3 (by decide)

/-- Claim C1 counterexample: with the callback for id 5 registered, two
response frames carrying respond_to = 5 invoke that callback twice - dispatch
does not remove the entry, so the callback is not invoked at most once. -/
theorem response_callback_invoked_twice :
    countOcc 5 (recvResponses (fun i => i == 5) [some 5, some 5]) = 2 ∧
    ¬ countOcc 5 (recvResponses (fun i => i == 5) [some 5, some 5]) ≤ 1 := by
  decide

theorem countOcc_append (r : Nat) (l₁ l₂ : List Nat) :
    countOcc r (l₁ ++ l₂) = countOcc r l₁ + countOcc r l₂ := by
  induction l₁ with
  | nil =>
    show countOcc r l₂ = 0 + countOcc r l₂
    omega
  | cons x rest ih =>
    show (if x = r then 1 else 0) + countOcc r (rest ++ l₂) = _
    rw [ih]
    show _ = (if x = r then 1 else 0) + countOcc r rest + countOcc r l₂
    omega

/-- Claim C1 amended: response dispatch never modifies the callback table, and
a callback registered under id r is invoked exactly once per frame carrying
respond_to = r (so several such frames invoke it several times); entries are
removed only by allocation-time wraparound, never by dispatch. -/
theorem recvResponses_dispatch_count :
    (∀ (cbs : Nat → Bool) (f : Option Nat), (dispatchResponse cbs f).2 = cbs) ∧
    (∀ (cbs : Nat → Bool) (frames : List (Option Nat)) (r : Nat),
      countOcc r (recvResponses cbs frames) =
        if cbs r then countFrames r frames else 0) := by
  constructor
  · intro cbs f
    cases f <;> rfl
  · intro cbs frames r
    induction frames with
    | nil =>
      show (0 : Nat) = if cbs r then 0 else 0
      rw [ite_self]
    | cons f rest ih =>
      cases f with
      | none =>
        show countOcc r ([] ++ recvResponses cbs rest) =
          if cbs r then (if (none : Option Nat) = some r then 1 else 0) + countFrames r rest
          else 0
        rw [List.nil_append, ih]
        by_cases h : cbs r <;> simp [h]
      | some x =>
        show countOcc r ((if cbs x then [x] else []) ++ recvResponses cbs rest) =
          if cbs r then (if some x = some r then 1 else 0) + countFrames r rest
          else 0
        rw [countOcc_append, ih]
        by_cases hx : cbs x <;> by_cases hxr : x = r <;>
          by_cases hr : cbs r <;>
          simp_all [countOcc]

/-- Claim C3 counterexample: an explicit `close(True)` followed by the close in
`send`'s failure path invokes the on-close callback twice - `Connection.close`
never checks whether the connection is already closed. -/
theorem close_notifies_twice :
    (sendFailClose (closeConn closeStateInit true)).notifications = 2 ∧
    ¬ (sendFailClose (closeConn closeStateInit true)).notifications ≤ 1 := by
  decide

/-- Claim C3 amended: `close` always sets the closed flag and closes the
socket, and with notify true it invokes the on-close callback on every call,
already-closed or not (so does the close in `send`'s failure path); only the
receive loop checks the closed flag first, so a StreamBroken observed on an
already-closed connection produces no further notification, while a first
close from the receive loop notifies exactly once. -/
theorem close_notification_behavior :
    (∀ (c : CloseState) (e : Bool),
      (closeConn c e).closed = true ∧ (closeConn c e).sockClosed = true) ∧
    (∀ c : CloseState, (closeConn c true).notifications = c.notifications + 1) ∧
    (∀ c : CloseState, (sendFailClose c).notifications = c.notifications + 1) ∧
    (∀ c : CloseState, c.closed = true → recvLoopOnBroken c = c) ∧
    (∀ c : CloseState, c.closed = false →
      (recvLoopOnBroken c).notifications = c.notifications + 1) := by
  refine ⟨fun c e => ⟨rfl, rfl⟩, fun c => rfl, fun c => rfl, ?_, ?_⟩
  · intro c h
    unfold recvLoopOnBroken
    rw [h, if_pos rfl]
  · intro c h
    unfold recvLoopOnBroken
    rw [h, if_neg (by decide)]
    rfl

/-- Witness for claim C3's amended theorem: the receive loop does not re-close
an already-closed connection. -/
theorem close_notification_behavior_witness :
    recvLoopOnBroken ⟨true, true, 1⟩ = (⟨true, true, 1⟩ : CloseState) :=
  close_notification_behavior.2.2.2.1 ⟨true, true, 1⟩ rfl

/-- Claim C8: a frame resolving to a type with a non-wildcard group outside the
connection's memberships is discarded before decode and before the receive
hook; a frame resolving to a wildcard-group type is always delivered; and the
wildcard is a member of every connection's group set, whatever groups were
passed at construction. -/
theorem group_filtering_spec :
    (∀ (registry : List (List Nat × PacketTypeInfo)) (gs : List String)
        (tid : List Nat) (cls : PacketTypeInfo),
      assocGet registry tid = some cls → cls.group ≠ "*" →
      cls.group ∉ connectionGroups gs →
      recvFilter registry (connectionGroups gs) tid = .droppedBadGroup) ∧
    (∀ (registry : List (List Nat × PacketTypeInfo)) (gs : List String)
        (tid : List Nat) (cls : PacketTypeInfo),
      assocGet registry tid = some cls → cls.group = "*" →
      recvFilter registry (connectionGroups gs) tid = .delivered) ∧
    (∀ gs : List String, "*" ∈ connectionGroups gs) := by
  refine ⟨?_, ?_, ?_⟩
  · intro registry gs tid cls hget hne hnotin
    unfold recvFilter
    rw [hget]
    show (if cls.group ≠ "*" ∧ cls.group ∉ connectionGroups gs then
      RecvOutcome.droppedBadGroup else RecvOutcome.delivered) = _
    rw [if_pos ⟨hne, hnotin⟩]
  · intro registry gs tid cls hget hstar
    unfold recvFilter
    rw [hget]
    show (if cls.group ≠ "*" ∧ cls.group ∉ connectionGroups gs then
      RecvOutcome.droppedBadGroup else RecvOutcome.delivered) = _
    rw [if_neg (fun h => h.1 hstar)]
  · intro gs
    exact List.mem_cons_self _ _

/-- Witness for claim C8: a type of group B is dropped by a connection whose
memberships are the wildcard plus A, and a wildcard-group type is delivered. -/
theorem group_filtering_spec_witness :
    recvFilter [([1], ⟨"B"⟩)] (connectionGroups ["A"]) [1] = .droppedBadGroup ∧
    recvFilter [([2], ⟨"*"⟩)] (connectionGroups ["A"]) [2] = .delivered :=
  ⟨group_filtering_spec.1 [([1], ⟨"B"⟩)] ["A"] [1] ⟨"B"⟩ (by decide) (by decide)
      (by decide),
    group_filtering_spec.2.1 [([2], ⟨"*"⟩)] ["A"] [2] ⟨"*"⟩ (by decide) rfl⟩

theorem assocGet_none_not_mem {α β : Type} [DecidableEq α] (l : List (α × β)) (k : α)
    (h : assocGet l k = none) : k ∉ l.map Prod.fst := by
  induction l with
  | nil => simp
  | cons kv rest ih =>
    intro hmem
    unfold assocGet at h
    by_cases hk : kv.1 = k
    · rw [if_pos hk] at h
      exact Option.noConfusion h
    · rw [if_neg hk] at h
      rcases List.mem_cons.mp hmem with h1 | h1
      · exact hk h1.symm
      · exact ih h h1

theorem assocGet_mem {α β : Type} [DecidableEq α] (l : List (α × β)) (k : α) (v : β)
    (h : assocGet l k = some v) : (k, v) ∈ l := by
  induction l with
  | nil => exact Option.noConfusion h
  | cons kv rest ih =>
    unfold assocGet at h
    by_cases hk : kv.1 = k
    · rw [if_pos hk] at h
      injection h with h2
      rw [← hk, ← h2]
      exact List.mem_cons_self _ _
    · rw [if_neg hk] at h
      exact List.mem_cons.mpr (Or.inr (ih h))

theorem assocGet_of_mem_nodup {α β : Type} [DecidableEq α] (l : List (α × β))
    (k : α) (v : β) (hmem : (k, v) ∈ l) (hnd : (l.map Prod.fst).Nodup) :
    assocGet l k = some v := by
  induction l with
  | nil => exact absurd hmem (List.not_mem_nil _)
  | cons kv rest ih =>
    rw [List.map_cons, List.nodup_cons] at hnd
    unfold assocGet
    rcases List.mem_cons.mp hmem with h1 | h1
    · rw [← h1]
      rw [if_pos rfl]
    · by_cases hk : kv.1 = k
      · exact absurd (hk ▸ List.mem_map_of_mem Prod.fst h1) hnd.1
      · rw [if_neg hk]
        exact ih h1 hnd.2

/-- Claim C9: registering a class under an already-taken wire identifier leaves
the registry unchanged (the identifier keeps resolving to the first-registered
class and the second class is not inserted), and registration preserves
uniqueness of identifiers among registered classes. -/
theorem registry_collision_spec :
    (∀ (reg : List (List Nat × Nat)) (aliasId : List Nat) (u : Bool) (c c' : Nat),
      assocGet reg aliasId = some c →
      registerPacket reg true aliasId u c' = reg ∧
      assocGet (registerPacket reg true aliasId u c') aliasId = some c) ∧
    (∀ (reg : List (List Nat × Nat)) (b : Bool) (aliasId : List Nat) (u : Bool)
        (c : Nat),
      (reg.map Prod.fst).Nodup → ((registerPacket reg b aliasId u c).map Prod.fst).Nodup) := by
  constructor
  · intro reg aliasId u c c' h
    have heq : registerPacket reg true aliasId u c' = reg := by
      unfold registerPacket
      rw [if_neg (by decide), if_pos (by rw [h]; rfl)]
    exact ⟨heq, by rw [heq, h]⟩
  · intro reg b aliasId u c hnd
    unfold registerPacket
    by_cases hb : b = false
    · rw [if_pos hb]
      exact hnd
    rw [if_neg hb]
    by_cases htaken : (assocGet reg aliasId).isSome
    · rw [if_pos htaken]
      exact hnd
    rw [if_neg htaken]
    by_cases hu : u = true
    · rw [if_pos hu]
      exact hnd
    rw [if_neg hu]
    rw [List.map_append, List.nodup_append]
    refine ⟨hnd, List.nodup_singleton _, ?_⟩
    intro a ha hb'
    rw [List.map_singleton, List.mem_singleton] at hb'
    rw [hb'] at ha
    exact assocGet_none_not_mem reg aliasId
      (Option.not_isSome_iff_eq_none.mp htaken) ha

/-- Witness for claim C9: re-registering alias [7] with a different class
leaves the registry unchanged and [7] still resolves to the original class. -/
theorem registry_collision_spec_witness :
    registerPacket [([7], 1)] true [7] false 2 = [([7], 1)] ∧
    assocGet (registerPacket [([7], 1)] true [7] false 2) [7] = some 1 :=
  registry_collision_spec.1 [([7], 1)] [7] false 1 2 (by decide)

theorem assocGet_eq_none_of_not_mem {α β : Type} [DecidableEq α] (l : List (α × β))
    (k : α) (h : k ∉ l.map Prod.fst) : assocGet l k = none := by
  induction l with
  | nil => rfl
  | cons kv rest ih =>
    rw [List.map_cons] at h
    show (if kv.1 = k then some kv.2 else assocGet rest k) = none
    rw [if_neg (fun he => h (by rw [← he]; exact List.mem_cons_self _ _)),
      ih (fun hm => h (List.mem_cons_of_mem _ hm))]

theorem checkMissing_none_of (kwargs : List (String × Val)) (schema : List (String × Ty))
    (h : ∀ n t, (n, t) ∈ schema → assocGet kwargs n = none → checkType t .vnull = true) :
    checkMissing kwargs schema = none := by
  induction schema with
  | nil => rfl
  | cons nt rest ih =>
    show (if (assocGet kwargs nt.1).isSome then checkMissing kwargs rest
      else if checkType nt.2 .vnull then checkMissing kwargs rest
      else some (.missingField nt.1 nt.2)) = none
    by_cases hs : (assocGet kwargs nt.1).isSome = true
    · rw [if_pos hs]
      exact ih (fun n t hm hn => h n t (List.mem_cons_of_mem _ hm) hn)
    · rw [if_neg hs]
      have hnone : assocGet kwargs nt.1 = none := Option.not_isSome_iff_eq_none.mp hs
      rw [if_pos (h nt.1 nt.2 (List.mem_cons_self _ _) hnone)]
      exact ih (fun n t hm hn => h n t (List.mem_cons_of_mem _ hm) hn)

theorem checkMissing_none_sound (kwargs : List (String × Val))
    (schema : List (String × Ty)) (h : checkMissing kwargs schema = none) :
    ∀ n t, (n, t) ∈ schema → assocGet kwargs n = none → checkType t .vnull = true := by
  induction schema with
  | nil =>
    intro n t hmem
    exact absurd hmem (List.not_mem_nil _)
  | cons nt rest ih =>
    intro n t hmem hnone
    replace h : (if (assocGet kwargs nt.1).isSome then checkMissing kwargs rest
      else if checkType nt.2 .vnull then checkMissing kwargs rest
      else some (.missingField nt.1 nt.2)) = none := h
    rcases List.mem_cons.mp hmem with h1 | h1
    · have e1 : n = nt.1 := congrArg Prod.fst h1
      have e2 : t = nt.2 := congrArg Prod.snd h1
      rw [← e1, ← e2] at h
      rw [if_neg (by rw [hnone]; exact fun hh => Bool.noConfusion hh)] at h
      by_cases hct : checkType t .vnull = true
      · exact hct
      · rw [if_neg hct] at h
        exact Option.noConfusion h
    · by_cases hs : (assocGet kwargs nt.1).isSome = true
      · rw [if_pos hs] at h
        exact ih h n t h1 hnone
      · rw [if_neg hs] at h
        by_cases hct : checkType nt.2 .vnull = true
        · rw [if_pos hct] at h
          exact ih h n t h1 hnone
        · rw [if_neg hct] at h
          exact Option.noConfusion h

theorem checkMissing_some_of (kwargs : List (String × Val)) (schema : List (String × Ty))
    (hbad : ∃ n t, (n, t) ∈ schema ∧ assocGet kwargs n = none ∧ checkType t .vnull = false) :
    ∃ n t, checkMissing kwargs schema = some (.missingField n t) ∧ (n, t) ∈ schema ∧
      assocGet kwargs n = none ∧ checkType t .vnull = false := by
  induction schema with
  | nil =>
    obtain ⟨n, t, hm, _, _⟩ := hbad
    exact absurd hm (List.not_mem_nil _)
  | cons nt rest ih =>
    by_cases hs : (assocGet kwargs nt.1).isSome = true
    · -- head is supplied, so the offending field is in the tail
      have hbad' : ∃ n t, (n, t) ∈ rest ∧ assocGet kwargs n = none ∧
          checkType t .vnull = false := by
        obtain ⟨n, t, hm, hn, hc⟩ := hbad
        rcases List.mem_cons.mp hm with h1 | h1
        · have e1 : n = nt.1 := congrArg Prod.fst h1
          rw [e1] at hn
          rw [hn] at hs
          exact absurd hs (fun hh => Bool.noConfusion hh)
        · exact ⟨n, t, h1, hn, hc⟩
      obtain ⟨n, t, heq, hm, hn, hc⟩ := ih hbad'
      refine ⟨n, t, ?_, List.mem_cons_of_mem _ hm, hn, hc⟩
      show (if (assocGet kwargs nt.1).isSome then checkMissing kwargs rest
        else if checkType nt.2 .vnull then checkMissing kwargs rest
        else some (.missingField nt.1 nt.2)) = some (.missingField n t)
      rw [if_pos hs]
      exact heq
    · have hnone : assocGet kwargs nt.1 = none := Option.not_isSome_iff_eq_none.mp hs
      by_cases hct : checkType nt.2 .vnull = true
      · -- head omitted but nullable, so the offending field is in the tail
        have hbad' : ∃ n t, (n, t) ∈ rest ∧ assocGet kwargs n = none ∧
            checkType t .vnull = false := by
          obtain ⟨n, t, hm, hn, hc⟩ := hbad
          rcases List.mem_cons.mp hm with h1 | h1
          · have e2 : t = nt.2 := congrArg Prod.snd h1
            rw [e2, hct] at hc
            exact Bool.noConfusion hc
          · exact ⟨n, t, h1, hn, hc⟩
        obtain ⟨n, t, heq, hm, hn, hc⟩ := ih hbad'
        refine ⟨n, t, ?_, List.mem_cons_of_mem _ hm, hn, hc⟩
        show (if (assocGet kwargs nt.1).isSome then checkMissing kwargs rest
          else if checkType nt.2 .vnull then checkMissing kwargs rest
          else some (.missingField nt.1 nt.2)) = some (.missingField n t)
        rw [if_neg hs, if_pos hct]
        exact heq
      · -- head is the first missing required field
        refine ⟨nt.1, nt.2, ?_, List.mem_cons_self _ _, hnone, ?_⟩
        · show (if (assocGet kwargs nt.1).isSome then checkMissing kwargs rest
            else if checkType nt.2 .vnull then checkMissing kwargs rest
            else some (.missingField nt.1 nt.2)) = some (.missingField nt.1 nt.2)
          rw [if_neg hs, if_neg hct]
        · cases hcc : checkType nt.2 .vnull with
          | true => exact absurd hcc hct
          | false => rfl

theorem checkSupplied_none_of (schema : List (String × Ty)) (kwargs : List (String × Val))
    (h : ∀ k v, (k, v) ∈ kwargs → ∃ t, assocGet schema k = some t ∧ checkType t v = true) :
    checkSupplied schema kwargs = none := by
  induction kwargs with
  | nil => rfl
  | cons kv rest ih =>
    obtain ⟨t, hget, hct⟩ := h kv.1 kv.2 (List.mem_cons_self _ _)
    show (match assocGet schema kv.1 with
      | none => some (.unexpectedField kv.1)
      | some t => if checkType t kv.2 then checkSupplied schema rest
        else some (.typeMismatch kv.1 t)) = none
    rw [hget]
    show (if checkType t kv.2 then checkSupplied schema rest
      else some (.typeMismatch kv.1 t)) = none
    rw [if_pos hct]
    exact ih (fun k v hm => h k v (List.mem_cons_of_mem _ hm))

theorem checkSupplied_none_sound (schema : List (String × Ty))
    (kwargs : List (String × Val)) (h : checkSupplied schema kwargs = none) :
    ∀ k v, (k, v) ∈ kwargs → ∃ t, assocGet schema k = some t ∧ checkType t v = true := by
  induction kwargs with
  | nil =>
    intro k v hm
    exact absurd hm (List.not_mem_nil _)
  | cons kv rest ih =>
    intro k v hm
    replace h : (match assocGet schema kv.1 with
      | none => some (.unexpectedField kv.1)
      | some t => if checkType t kv.2 then checkSupplied schema rest
        else some (.typeMismatch kv.1 t)) = none := h
    cases hget : assocGet schema kv.1 with
    | none =>
      rw [hget] at h
      exact Option.noConfusion h
    | some t =>
      rw [hget] at h
      replace h : (if checkType t kv.2 then checkSupplied schema rest
        else some (.typeMismatch kv.1 t)) = none := h
      by_cases hct : checkType t kv.2 = true
      · rw [if_pos hct] at h
        rcases List.mem_cons.mp hm with h1 | h1
        · have e1 : k = kv.1 := congrArg Prod.fst h1
          have e2 : v = kv.2 := congrArg Prod.snd h1
          rw [e1, e2]
          exact ⟨t, hget, hct⟩
        · exact ih h k v h1
      · rw [if_neg hct] at h
        exact Option.noConfusion h

theorem checkSupplied_unexpected_of (schema : List (String × Ty))
    (kwargs : List (String × Val))
    (hwell : ∀ k v t, (k, v) ∈ kwargs → assocGet schema k = some t → checkType t v = true)
    (hbad : ∃ k v, (k, v) ∈ kwargs ∧ assocGet schema k = none) :
    ∃ k, checkSupplied schema kwargs = some (.unexpectedField k) ∧
      ∃ v, (k, v) ∈ kwargs ∧ assocGet schema k = none := by
  induction kwargs with
  | nil =>
    obtain ⟨k, v, hm, _⟩ := hbad
    exact absurd hm (List.not_mem_nil _)
  | cons kv rest ih =>
    cases hget : assocGet schema kv.1 with
    | none =>
      refine ⟨kv.1, ?_, kv.2, List.mem_cons_self _ _, hget⟩
      show (match assocGet schema kv.1 with
        | none => some (.unexpectedField kv.1)
        | some t => if checkType t kv.2 then checkSupplied schema rest
          else some (.typeMismatch kv.1 t)) = some (.unexpectedField kv.1)
      rw [hget]
    | some t =>
      have hct := hwell kv.1 kv.2 t (List.mem_cons_self _ _) hget
      have hbad' : ∃ k v, (k, v) ∈ rest ∧ assocGet schema k = none := by
        obtain ⟨k, v, hm, hn⟩ := hbad
        rcases List.mem_cons.mp hm with h1 | h1
        · have e1 : k = kv.1 := congrArg Prod.fst h1
          rw [e1, hget] at hn
          exact Option.noConfusion hn
        · exact ⟨k, v, h1, hn⟩
      obtain ⟨k, heq, v, hm', hn'⟩ :=
        ih (fun k v t' hm ht => hwell k v t' (List.mem_cons_of_mem _ hm) ht) hbad'
      refine ⟨k, ?_, v, List.mem_cons_of_mem _ hm', hn'⟩
      show (match assocGet schema kv.1 with
        | none => some (.unexpectedField kv.1)
        | some t => if checkType t kv.2 then checkSupplied schema rest
          else some (.typeMismatch kv.1 t)) = some (.unexpectedField k)
      rw [hget]
      show (if checkType t kv.2 then checkSupplied schema rest
        else some (.typeMismatch kv.1 t)) = some (.unexpectedField k)
      rw [if_pos hct]
      exact heq

theorem checkSupplied_mismatch_of (schema : List (String × Ty))
    (kwargs : List (String × Val))
    (hdecl : ∀ k v, (k, v) ∈ kwargs → (assocGet schema k).isSome = true)
    (hbad : ∃ k v t, (k, v) ∈ kwargs ∧ assocGet schema k = some t ∧ checkType t v = false) :
    ∃ k t, checkSupplied schema kwargs = some (.typeMismatch k t) ∧
      ∃ v, (k, v) ∈ kwargs ∧ assocGet schema k = some t ∧ checkType t v = false := by
  induction kwargs with
  | nil =>
    obtain ⟨k, v, t, hm, _, _⟩ := hbad
    exact absurd hm (List.not_mem_nil _)
  | cons kv rest ih =>
    cases hget : assocGet schema kv.1 with
    | none =>
      have := hdecl kv.1 kv.2 (List.mem_cons_self _ _)
      rw [hget] at this
      exact absurd this (fun hh => Bool.noConfusion hh)
    | some t =>
      by_cases hct : checkType t kv.2 = true
      · -- head well-typed, so the offending entry is in the tail
        have hbad' : ∃ k v t, (k, v) ∈ rest ∧ assocGet schema k = some t ∧
            checkType t v = false := by
          obtain ⟨k, v, t', hm, hg, hc⟩ := hbad
          rcases List.mem_cons.mp hm with h1 | h1
          · have e1 : k = kv.1 := congrArg Prod.fst h1
            have e2 : v = kv.2 := congrArg Prod.snd h1
            rw [e1, hget] at hg
            injection hg with e3
            rw [e2, ← e3, hct] at hc
            exact Bool.noConfusion hc
          · exact ⟨k, v, t', h1, hg, hc⟩
        obtain ⟨k, t', heq, v, hm', hg', hc'⟩ :=
          ih (fun k v hm => hdecl k v (List.mem_cons_of_mem _ hm)) hbad'
        refine ⟨k, t', ?_, v, List.mem_cons_of_mem _ hm', hg', hc'⟩
        show (match assocGet schema kv.1 with
          | none => some (.unexpectedField kv.1)
          | some t => if checkType t kv.2 then checkSupplied schema rest
            else some (.typeMismatch kv.1 t)) = some (.typeMismatch k t')
        rw [hget]
        show (if checkType t kv.2 then checkSupplied schema rest
          else some (.typeMismatch kv.1 t)) = some (.typeMismatch k t')
        rw [if_pos hct]
        exact heq
      · -- head is the first type mismatch
        refine ⟨kv.1, t, ?_, kv.2, List.mem_cons_self _ _, hget, ?_⟩
        · show (match assocGet schema kv.1 with
            | none => some (.unexpectedField kv.1)
            | some t => if checkType t kv.2 then checkSupplied schema rest
              else some (.typeMismatch kv.1 t)) = some (.typeMismatch kv.1 t)
          rw [hget]
          show (if checkType t kv.2 then checkSupplied schema rest
            else some (.typeMismatch kv.1 t)) = some (.typeMismatch kv.1 t)
          rw [if_neg hct]
        · cases hcc : checkType t kv.2 with
          | true => exact absurd hcc hct
          | false => rfl

theorem initPacket_ok_of (schema : List (String × Ty)) (kwargs : List (String × Val))
    (hm : checkMissing kwargs schema = none) (hs : checkSupplied schema kwargs = none) :
    initPacket schema kwargs = .ok (assignFields schema kwargs) := by
  unfold initPacket
  rw [hm, hs]

theorem initPacket_error_missing (schema : List (String × Ty))
    (kwargs : List (String × Val)) (e : InitError)
    (hm : checkMissing kwargs schema = some e) :
    initPacket schema kwargs = .error e := by
  unfold initPacket
  rw [hm]

theorem initPacket_error_supplied (schema : List (String × Ty))
    (kwargs : List (String × Val)) (e : InitError)
    (hm : checkMissing kwargs schema = none) (hs : checkSupplied schema kwargs = some e) :
    initPacket schema kwargs = .error e := by
  unfold initPacket
  rw [hm, hs]

theorem initPacket_ok_inv (schema : List (String × Ty)) (kwargs : List (String × Val))
    (inst : List (String × Val)) (h : initPacket schema kwargs = .ok inst) :
    checkMissing kwargs schema = none ∧ checkSupplied schema kwargs = none ∧
      inst = assignFields schema kwargs := by
  unfold initPacket at h
  cases hm : checkMissing kwargs schema with
  | some e =>
    rw [hm] at h
    exact Except.noConfusion h
  | none =>
    rw [hm] at h
    cases hs : checkSupplied schema kwargs with
    | some e =>
      rw [hs] at h
      exact Except.noConfusion h
    | none =>
      rw [hs] at h
      replace h : Except.ok (assignFields schema kwargs) = Except.ok inst := h
      injection h with h'
      exact ⟨rfl, rfl, h'.symm⟩

theorem assignFields_keys (schema : List (String × Ty)) (kwargs : List (String × Val)) :
    (assignFields schema kwargs).map Prod.fst = schema.map Prod.fst := by
  induction schema with
  | nil => rfl
  | cons nt rest ih =>
    show nt.1 :: (assignFields rest kwargs).map Prod.fst = nt.1 :: rest.map Prod.fst
    rw [ih]

theorem assignFields_get (schema : List (String × Ty)) (kwargs : List (String × Val))
    (n : String) (t : Ty) (hnd : (schema.map Prod.fst).Nodup) (hmem : (n, t) ∈ schema) :
    assocGet (assignFields schema kwargs) n = some ((assocGet kwargs n).getD .vnull) := by
  apply assocGet_of_mem_nodup
  · exact List.mem_map.mpr ⟨(n, t), hmem, rfl⟩
  · rw [assignFields_keys]
    exact hnd

theorem assignFields_mem (schema : List (String × Ty)) (kwargs : List (String × Val))
    (k : String) (v : Val) (hmem : (k, v) ∈ assignFields schema kwargs) :
    ∃ t, (k, t) ∈ schema ∧ v = (assocGet kwargs k).getD .vnull := by
  obtain ⟨nt, hnt, heq⟩ := List.mem_map.mp hmem
  have e1 : nt.1 = k := congrArg Prod.fst heq
  have e2 : (assocGet kwargs nt.1).getD .vnull = v := congrArg Prod.snd heq
  refine ⟨nt.2, ?_, ?_⟩
  · rw [← e1]
    exact hnt
  · rw [← e2, e1]

theorem assignFields_congr (schema : List (String × Ty)) (kw1 kw2 : List (String × Val))
    (h : ∀ n, n ∈ schema.map Prod.fst →
      (assocGet kw1 n).getD .vnull = (assocGet kw2 n).getD .vnull) :
    assignFields schema kw1 = assignFields schema kw2 := by
  induction schema with
  | nil => rfl
  | cons nt rest ih =>
    show (nt.1, (assocGet kw1 nt.1).getD .vnull) :: assignFields rest kw1 =
      (nt.1, (assocGet kw2 nt.1).getD .vnull) :: assignFields rest kw2
    rw [h nt.1 (List.mem_map.mpr ⟨nt, List.mem_cons_self _ _, rfl⟩),
      ih (fun n hn => h n (by rw [List.map_cons]; exact List.mem_cons_of_mem _ hn))]

theorem publicFieldValues_keys_sublist (inst : List (String × Val)) :
    ((publicFieldValues inst).map Prod.fst).Sublist (inst.map Prod.fst) :=
  (List.filter_sublist inst).map Prod.fst

theorem publicFieldValues_get_of_ne (inst : List (String × Val)) (k : String) (v : Val)
    (hnd : (inst.map Prod.fst).Nodup) (hget : assocGet inst k = some v)
    (hv : v ≠ .vnull) : assocGet (publicFieldValues inst) k = some v := by
  induction inst with
  | nil => exact Option.noConfusion hget
  | cons kv rest ih =>
    rw [List.map_cons, List.nodup_cons] at hnd
    replace hget : (if kv.1 = k then some kv.2 else assocGet rest k) = some v := hget
    show assocGet ((kv :: rest).filter fun kv' => kv'.2 ≠ Val.vnull) k = some v
    rw [List.filter_cons]
    by_cases hk : kv.1 = k
    · rw [if_pos hk] at hget
      injection hget with e2
      rw [if_pos (by rw [e2]; exact decide_eq_true hv)]
      show (if kv.1 = k then some kv.2 else
        assocGet (rest.filter fun kv' => kv'.2 ≠ Val.vnull) k) = some v
      rw [if_pos hk, e2]
    · rw [if_neg hk] at hget
      by_cases hp : (decide (kv.2 ≠ Val.vnull)) = true
      · rw [if_pos hp]
        show (if kv.1 = k then some kv.2 else
          assocGet (rest.filter fun kv' => kv'.2 ≠ Val.vnull) k) = some v
        rw [if_neg hk]
        exact ih hnd.2 hget
      · rw [if_neg hp]
        exact ih hnd.2 hget

theorem publicFieldValues_get_null (inst : List (String × Val)) (k : String)
    (hnd : (inst.map Prod.fst).Nodup) (hget : assocGet inst k = some .vnull) :
    assocGet (publicFieldValues inst) k = none := by
  induction inst with
  | nil => exact Option.noConfusion hget
  | cons kv rest ih =>
    rw [List.map_cons, List.nodup_cons] at hnd
    replace hget : (if kv.1 = k then some kv.2 else assocGet rest k) = some .vnull := hget
    show assocGet ((kv :: rest).filter fun kv' => kv'.2 ≠ Val.vnull) k = none
    rw [List.filter_cons]
    by_cases hk : kv.1 = k
    · rw [if_pos hk] at hget
      injection hget with e2
      rw [if_neg (by rw [e2]; exact fun hh => (of_decide_eq_true hh) rfl)]
      apply assocGet_eq_none_of_not_mem
      intro hmem
      exact hnd.1 (hk ▸ (publicFieldValues_keys_sublist rest).subset hmem)
    · rw [if_neg hk] at hget
      by_cases hp : (decide (kv.2 ≠ Val.vnull)) = true
      · rw [if_pos hp]
        show (if kv.1 = k then some kv.2 else
          assocGet (rest.filter fun kv' => kv'.2 ≠ Val.vnull) k) = none
        rw [if_neg hk]
        exact ih hnd.2 hget
      · rw [if_neg hp]
        exact ih hnd.2 hget

/-- Claim C6: packet construction behaves as specified for every combination of
supplied and omitted fields: when every omitted field is nullable and every
supplied value is declared and well-typed, construction succeeds with omitted
fields set to null and supplied values assigned; an omitted non-nullable field
fails with a MissingField error naming the field and its type; a supplied field
not declared in the schema fails with an UnexpectedField error; and a supplied
value not matching its declared type fails with a TypeMismatch error. -/
theorem packet_init_spec (schema : List (String × Ty)) (kwargs : List (String × Val)) :
    ((∀ n t, (n, t) ∈ schema → assocGet kwargs n = none → checkType t .vnull = true) →
     (∀ k v, (k, v) ∈ kwargs → ∃ t, assocGet schema k = some t ∧ checkType t v = true) →
     initPacket schema kwargs =
       .ok (schema.map fun nt => (nt.1, (assocGet kwargs nt.1).getD .vnull))) ∧
    ((∃ n t, (n, t) ∈ schema ∧ assocGet kwargs n = none ∧ checkType t .vnull = false) →
     ∃ n t, initPacket schema kwargs = .error (.missingField n t) ∧ (n, t) ∈ schema ∧
       assocGet kwargs n = none ∧ checkType t .vnull = false) ∧
    ((∀ n t, (n, t) ∈ schema → assocGet kwargs n = none → checkType t .vnull = true) →
     (∀ k v t, (k, v) ∈ kwargs → assocGet schema k = some t → checkType t v = true) →
     (∃ k v, (k, v) ∈ kwargs ∧ assocGet schema k = none) →
     ∃ k, initPacket schema kwargs = .error (.unexpectedField k) ∧
       ∃ v, (k, v) ∈ kwargs ∧ assocGet schema k = none) ∧
    ((∀ n t, (n, t) ∈ schema → assocGet kwargs n = none → checkType t .vnull = true) →
     (∀ k v, (k, v) ∈ kwargs → (assocGet schema k).isSome = true) →
     (∃ k v t, (k, v) ∈ kwargs ∧ assocGet schema k = some t ∧ checkType t v = false) →
     ∃ k t, initPacket schema kwargs = .error (.typeMismatch k t) ∧
       ∃ v, (k, v) ∈ kwargs ∧ assocGet schema k = some t ∧ checkType t v = false) := by
  refine ⟨?_, ?_, ?_, ?_⟩
  · intro h1 h2
    exact initPacket_ok_of schema kwargs (checkMissing_none_of kwargs schema h1)
      (checkSupplied_none_of schema kwargs h2)
  · intro hbad
    obtain ⟨n, t, heq, hm, hn, hc⟩ := checkMissing_some_of kwargs schema hbad
    exact ⟨n, t, initPacket_error_missing schema kwargs _ heq, hm, hn, hc⟩
  · intro h1 hwell hbad
    obtain ⟨k, heq, v, hm, hn⟩ := checkSupplied_unexpected_of schema kwargs hwell hbad
    exact ⟨k, initPacket_error_supplied schema kwargs _
      (checkMissing_none_of kwargs schema h1) heq, v, hm, hn⟩
  · intro h1 hdecl hbad
    obtain ⟨k, t, heq, v, hm, hg, hc⟩ := checkSupplied_mismatch_of schema kwargs hdecl hbad
    exact ⟨k, t, initPacket_error_supplied schema kwargs _
      (checkMissing_none_of kwargs schema h1) heq, v, hm, hg, hc⟩

/-- Witness for claim C6: a schema with a required int field and an optional
string field, constructed with only the int supplied, yields the int value and
a null for the optional field. -/
theorem packet_init_spec_witness :
    initPacket [("value", Ty.tint), ("tag", Ty.topt Ty.tstr)] [("value", Val.vint 7)] =
      .ok [("value", Val.vint 7), ("tag", Val.vnull)] := by
  have h := (packet_init_spec [("value", Ty.tint), ("tag", Ty.topt Ty.tstr)]
      [("value", Val.vint 7)]).1 ?_ ?_
  · exact h
  · intro n t hm hn
    rcases List.mem_cons.mp hm with h1 | h1
    · have e1 : n = "value" := congrArg Prod.fst h1
      rw [e1] at hn
      exact absurd hn (by decide)
    · rcases List.mem_cons.mp h1 with h2 | h2
      · have e2 : t = Ty.topt Ty.tstr := congrArg Prod.snd h2
        rw [e2]
        rfl
      · exact absurd h2 (List.not_mem_nil _)
  · intro k v hm
    rcases List.mem_cons.mp hm with h1 | h1
    · have e1 : k = "value" := congrArg Prod.fst h1
      have e2 : v = Val.vint 7 := congrArg Prod.snd h1
      rw [e1, e2]
      exact ⟨Ty.tint, by decide, rfl⟩
    · exact absurd h1 (List.not_mem_nil _)

/-- Claim C5: assuming the external msgpack codec round-trips the non-null
field mapping, decoding the bytes produced by encode on any validly
constructed instance reconstructs an instance of the same schema with
identical field values. -/
theorem packet_encode_decode_roundtrip {β : Type} (packb : List (String × Val) → β)
    (unpackb : β → List (String × Val)) (schema : List (String × Ty))
    (kwargs inst : List (String × Val))
    (hnd : (schema.map Prod.fst).Nodup)
    (hinit : initPacket schema kwargs = .ok inst)
    (hcodec : unpackb (encodeFields packb inst) = publicFieldValues inst) :
    decodeFields unpackb schema (encodeFields packb inst) = .ok inst := by
  obtain ⟨hm, hs, hinst⟩ := initPacket_ok_inv schema kwargs inst hinit
  subst hinst
  show initPacket schema (unpackb (encodeFields packb (assignFields schema kwargs))) =
    .ok (assignFields schema kwargs)
  rw [hcodec]
  have hAnd : ((assignFields schema kwargs).map Prod.fst).Nodup := by
    rw [assignFields_keys]
    exact hnd
  have hm2 : checkMissing (publicFieldValues (assignFields schema kwargs)) schema = none := by
    apply checkMissing_none_of
    intro n t hmem hnone
    have hgA := assignFields_get schema kwargs n t hnd hmem
    cases hk : assocGet kwargs n with
    | none => exact checkMissing_none_sound kwargs schema hm n t hmem hk
    | some u =>
      rw [hk, Option.getD_some] at hgA
      by_cases hu : u = Val.vnull
      · subst hu
        have hmemk := assocGet_mem kwargs n Val.vnull hk
        obtain ⟨t', hget', hct'⟩ := checkSupplied_none_sound schema kwargs hs n Val.vnull hmemk
        have hts : assocGet schema n = some t := assocGet_of_mem_nodup schema n t hmem hnd
        rw [hts] at hget'
        injection hget' with e3
        rw [e3]
        exact hct'
      · have hpf := publicFieldValues_get_of_ne (assignFields schema kwargs) n u hAnd hgA hu
        rw [hpf] at hnone
        exact Option.noConfusion hnone
  have hs2 : checkSupplied schema (publicFieldValues (assignFields schema kwargs)) = none := by
    apply checkSupplied_none_of
    intro k v hmem
    unfold publicFieldValues at hmem
    have hmem2 := List.mem_filter.mp hmem
    have hv : v ≠ Val.vnull := of_decide_eq_true hmem2.2
    obtain ⟨t, htmem, hveq⟩ := assignFields_mem schema kwargs k v hmem2.1
    cases hk : assocGet kwargs k with
    | none =>
      rw [hk, Option.getD_none] at hveq
      exact absurd hveq hv
    | some u =>
      rw [hk, Option.getD_some] at hveq
      have hmemk := assocGet_mem kwargs k u hk
      obtain ⟨t', hget', hct'⟩ := checkSupplied_none_sound schema kwargs hs k u hmemk
      exact ⟨t', hget', by rw [hveq]; exact hct'⟩
  have hassign : assignFields schema (publicFieldValues (assignFields schema kwargs)) =
      assignFields schema kwargs := by
    apply assignFields_congr
    intro n hn
    obtain ⟨nt, hnt, hfst⟩ := List.mem_map.mp hn
    have hmem : (n, nt.2) ∈ schema := by
      rw [← hfst]
      exact hnt
    have hgA := assignFields_get schema kwargs n nt.2 hnd hmem
    cases hk : assocGet kwargs n with
    | none =>
      rw [hk, Option.getD_none] at hgA
      rw [publicFieldValues_get_null (assignFields schema kwargs) n hAnd hgA]
    | some u =>
      rw [hk, Option.getD_some] at hgA
      by_cases hu : u = Val.vnull
      · subst hu
        rw [publicFieldValues_get_null (assignFields schema kwargs) n hAnd hgA]
        rfl
      · rw [publicFieldValues_get_of_ne (assignFields schema kwargs) n u hAnd hgA hu]
  rw [initPacket_ok_of schema _ hm2 hs2, hassign]

/-- Witness for claim C5 with the identity codec: the instance with value 7
and a null optional tag decodes from its own encoding. -/
theorem packet_encode_decode_roundtrip_witness :
    decodeFields (fun d => d) [("value", Ty.tint), ("tag", Ty.topt Ty.tstr)]
      (encodeFields (fun m => m) [("value", Val.vint 7), ("tag", Val.vnull)]) =
      .ok [("value", Val.vint 7), ("tag", Val.vnull)] :=
  packet_encode_decode_roundtrip (fun m => m) (fun d => d)
    [("value", Ty.tint), ("tag", Ty.topt Ty.tstr)] [("value", Val.vint 7)]
    [("value", Val.vint 7), ("tag", Val.vnull)] (by decide) rfl rfl

/-- Claim C10: the encoded packet body is built from exactly the class-dict
entries that are public fields currently holding non-null values - an entry
appears in `public_attributes` precisely when its key does not start with an
underscore, its class-level value is not a routine, and its current value is
not None; in particular the transient receive context `_req_id` and `_conn`
and the schema knobs `_alias`, `_packet_group`, `_unregistered` and `_dump`
never appear in what `encode()` serializes. -/
theorem encode_public_fields_spec {β : Type} (packb : List (String × PyVal) → β)
    (p : PacketObj) :
    encodePacket packb p = packb (publicAttributes p) ∧
    (∀ (k : String) (v : PyVal), (k, v) ∈ publicAttributes p ↔
      ∃ cv, (k, cv) ∈ p.classDict ∧ startsWithUnderscore k = false ∧
        isroutine cv = false ∧ v = pyGetattr p k ∧ isNone v = false) ∧
    (∀ v, ("_req_id", v) ∉ publicAttributes p) ∧
    (∀ v, ("_conn", v) ∉ publicAttributes p) ∧
    (∀ v, ("_alias", v) ∉ publicAttributes p) ∧
    (∀ v, ("_packet_group", v) ∉ publicAttributes p) ∧
    (∀ v, ("_unregistered", v) ∉ publicAttributes p) ∧
    (∀ v, ("_dump", v) ∉ publicAttributes p) := by
  have hiff : ∀ (k : String) (v : PyVal), (k, v) ∈ publicAttributes p ↔
      ∃ cv, (k, cv) ∈ p.classDict ∧ startsWithUnderscore k = false ∧
        isroutine cv = false ∧ v = pyGetattr p k ∧ isNone v = false := by
    intro k v
    unfold publicAttributes
    rw [List.mem_filterMap]
    constructor
    · rintro ⟨kv, hkv, hf⟩
      by_cases hcond : startsWithUnderscore kv.1 = false ∧ isroutine kv.2 = false ∧
          isNone (pyGetattr p kv.1) = false
      · rw [if_pos hcond] at hf
        injection hf with hf'
        have e1 : kv.1 = k := congrArg Prod.fst hf'
        have e2 : pyGetattr p kv.1 = v := congrArg Prod.snd hf'
        refine ⟨kv.2, ?_, ?_, hcond.2.1, ?_, ?_⟩
        · rw [← e1]
          exact hkv
        · rw [← e1]
          exact hcond.1
        · rw [← e2, e1]
        · rw [← e2]
          exact hcond.2.2
      · rw [if_neg hcond] at hf
        exact Option.noConfusion hf
    · rintro ⟨cv, hmem, h1, h2, h3, h4⟩
      refine ⟨(k, cv), hmem, ?_⟩
      rw [if_pos ⟨h1, h2, by rw [← h3]; exact h4⟩]
      rw [← h3]
  refine ⟨rfl, hiff, ?_, ?_, ?_, ?_, ?_, ?_⟩
  all_goals
    intro v hmem
    obtain ⟨cv, _, hstart, _⟩ := (hiff _ _).mp hmem
    exact absurd hstart (by decide)

/-- Witness for claim C10: on a packet whose class dict declares `_req_id` and
one public field, the transient `_req_id` value never appears in the encoded
attribute list. -/
theorem encode_public_fields_spec_witness :
    ("_req_id", PyVal.val (Val.vint 3)) ∉ publicAttributes
      ⟨[("_req_id", PyVal.val (Val.vint 0)), ("value", PyVal.tyObj Ty.tint)],
        [("_req_id", Val.vint 3), ("value", Val.vint 7)]⟩ :=
  (encode_public_fields_spec (fun m => m)
      ⟨[("_req_id", PyVal.val (Val.vint 0)), ("value", PyVal.tyObj Ty.tint)],
        [("_req_id", Val.vint 3), ("value", Val.vint 7)]⟩).2.2.1
    (PyVal.val (Val.vint 3))
